import Mathlib

/-!
Verification development for the axis-servo execution layer
(`servo_controller.py`): unit conversions, command state store,
mode/safety manager, bulk-read adapter and the synchronized executor
`execute_time_synced`, shallowly embedded as pure Lean functions.

Modelling conventions:
* Python floats are modelled as rationals (`ℚ`); every concrete input used
  in counterexamples and witnesses is dyadic, so the arithmetic agrees
  exactly with IEEE double evaluation there.
* Python `round` is round-half-to-even (`rhe`), Python `int(...)` on a
  nonnegative value truncates (`truncZ`).
* The bus is an environment: `execute_time_synced` consumes a stream of
  read results `env : ℕ → ReadResult` in call order, and records every
  `sync_write_goal_positions` payload in a trace.  Wall-clock pacing
  (the sleeps) is not observable; the settle-phase deadline is abstracted
  by a fuel `maxPolls`, the number of loop iterations the deadline admits.
* Mutable attributes of the `AxisServo` object are threaded explicitly
  through `CtrlState`.
-/

namespace DxlServo

/-- Round half to even on rationals, the rounding rule of Python round(). -/
def rhe (q : ℚ) : ℤ :=
  let f := ⌊q⌋
  let r := q - (f : ℚ)
  if r < 1/2 then f
  else if 1/2 < r then f + 1
  else if f % 2 = 0 then f else f + 1

/-- Truncation toward zero, the behaviour of Python int() on a float. -/
def truncZ (q : ℚ) : ℤ := if 0 ≤ q then ⌊q⌋ else ⌈q⌉

/-- Model of `AxisServo.deg_to_ticks`: int(round(deg * ticks_per_rev / 360.0)). -/
def deg_to_ticks (ticks_per_rev : ℕ) (deg : ℚ) : ℤ :=
  rhe (deg * (ticks_per_rev : ℚ) / 360)

/-- Model of `AxisServo.ticks_to_deg`: ticks * 360.0 / ticks_per_rev. -/
def ticks_to_deg (ticks_per_rev : ℕ) (ticks : ℤ) : ℚ :=
  (ticks : ℚ) * 360 / (ticks_per_rev : ℚ)

/-- The clamp max(-2**31, min(2**31 - 1, t)) applied by the target setters. -/
def clampI32 (t : ℤ) : ℤ := max (-(2 ^ 31)) (min (2 ^ 31 - 1) t)

/-- Model of `AxisServo._int32`: reinterpret a raw unsigned register value as i32. -/
def int32 (x : ℕ) : ℤ :=
  let y : ℕ := x % 2 ^ 32
  if y < 2 ^ 31 then (y : ℤ) else (y : ℤ) - 2 ^ 32

/-- Model of `AxisServo._i16`: reinterpret a raw unsigned register value as i16. -/
def i16 (x : ℕ) : ℤ :=
  let y : ℕ := x % 2 ^ 16
  if y < 2 ^ 15 then (y : ℤ) else (y : ℤ) - 2 ^ 16

/-- The configuration fields the execution layer reads (from `DxlConfig`). -/
structure Cfg where
  ids : List ℕ
  ticks_per_rev : ℕ
  addr_operating_mode : ℕ
  addr_torque_enable : ℕ
  mode_extended_position : ℕ

/-- Model of `AxisServo.set_targets_abs_deg`: overwrite the stored command of each
listed axis with the clamped converted ticks.  The Python dict iteration is
modelled as a fold over an association list. -/
def set_targets_abs_deg (tpr : ℕ) (cmd : ℕ → ℤ) (targets : List (ℕ × ℚ)) :
    ℕ → ℤ :=
  targets.foldl
    (fun c p => Function.update c p.1 (clampI32 (deg_to_ticks tpr p.2))) cmd

/-- Model of `AxisServo.nudge_rel_deg`: add the converted tick delta to the currently
stored command value of each listed axis (never to a measured position,
which this function does not even receive), then clamp. -/
def nudge_rel_deg (tpr : ℕ) (cmd : ℕ → ℤ) (deltas : List (ℕ × ℚ)) :
    ℕ → ℤ :=
  deltas.foldl
    (fun c p => Function.update c p.1 (clampI32 (c p.1 + deg_to_ticks tpr p.2)))
    cmd

/-- One register write emitted on the bus (id, address, value). -/
structure RegWrite where
  id : ℕ
  addr : ℕ
  value : ℕ
deriving DecidableEq

def TORQUE_ENABLE : ℕ := 1
def TORQUE_DISABLE : ℕ := 0

/-- Model of `AxisServo.ensure_extended_mode`, as the sequence of register writes it
emits: for each axis in order, torque off, operating mode, torque on. -/
def ensure_extended_mode (cfg : Cfg) (ids : List ℕ) : List RegWrite :=
  (ids.map (fun i =>
    [RegWrite.mk i cfg.addr_torque_enable TORQUE_DISABLE,
     RegWrite.mk i cfg.addr_operating_mode cfg.mode_extended_position,
     RegWrite.mk i cfg.addr_torque_enable TORQUE_ENABLE])).flatten

/-- The mutable attributes of the `AxisServo` object that the execution
layer touches, threaded explicitly. -/
structure CtrlState where
  cmd_ticks : ℕ → ℤ
  last_present_ticks : ℕ → Option ℤ
  last_present_current : ℕ → Option ℤ
  supports_current : Option Bool

/-- Raw per-call bus behaviour seen by one `GroupBulkRead` transaction:
whether the transaction succeeds and, per axis, which fields are available
and with which raw register values. -/
structure BusResponse where
  commOk : Bool
  posAvail : ℕ → Bool
  posRaw : ℕ → ℕ
  curAvail : ℕ → Bool
  curRaw : ℕ → ℕ

/-- What one `AxisServo.bulk_read` call returns, plus (as instrumentation)
whether it actually added current read parameters to the transaction. -/
structure BulkReadOut where
  pos : ℕ → ℤ
  cur : ℕ → Option ℤ
  requested_current : Bool

/-- Model of `AxisServo.bulk_read`: positions are required (missing one is a hard
failure), current is optional and the flag `supports_current` is decided
once, on the first call that requested current. -/
def bulk_read (cfg : Cfg) (st : CtrlState) (want_current : Bool)
    (resp : BusResponse) : Except String (BulkReadOut × CtrlState) :=
  let req : Bool := want_current && !(st.supports_current == some false)
  if resp.commOk = false then
    Except.error "BulkRead failed"
  else if cfg.ids.any (fun i => !resp.posAvail i) then
    Except.error "PresentPosition not available"
  else
    let pos : ℕ → ℤ := fun i => int32 (resp.posRaw i)
    let cur : ℕ → Option ℤ := fun i =>
      if req && resp.curAvail i && cfg.ids.contains i
      then some (i16 (resp.curRaw i)) else none
    let ok_all : Bool := cfg.ids.all (fun i => resp.curAvail i)
    let supports : Option Bool :=
      if req && (st.supports_current == none) then some ok_all
      else st.supports_current
    Except.ok
      (BulkReadOut.mk pos cur req,
       { st with
          last_present_ticks := fun i =>
            if i ∈ cfg.ids then some (pos i) else st.last_present_ticks i
          last_present_current := fun i =>
            if i ∈ cfg.ids then cur i else st.last_present_current i
          supports_current := supports })

/-- One successful bus read as seen by the executor: present positions and
(optionally) present currents per axis. -/
structure ReadResult where
  pos : ℕ → ℤ
  cur : ℕ → Option ℤ

/-- The environment of one executor call: the stream of bus read results,
consumed in call order. -/
abbrev Env : Type := ℕ → ReadResult

/-- Cache update a successful bulk read performs on the controller state
(`last_present_ticks.update(pos)`, `last_present_current.update(cur)`). -/
def applyRead (ids : List ℕ) (st : CtrlState) (r : ReadResult) : CtrlState :=
  { st with
    last_present_ticks := fun i =>
      if i ∈ ids then some (r.pos i) else st.last_present_ticks i
    last_present_current := fun i =>
      if i ∈ ids then r.cur i else st.last_present_current i }

/-- max(abs(goal[i] - pos[i]) for i in ids).  The fold base 0 agrees with
the Python max for every nonempty id list since the values are absolute. -/
def max_abs_err (ids : List ℕ) (goal pos : ℕ → ℤ) : ℤ :=
  ids.foldl (fun m i => max m |goal i - pos i|) 0

/-- The current-guard test of the streaming loop: some axis has a present
current reading strictly outside [mn, mx]. -/
def guard_bad (ids : List ℕ) (mn mx : ℤ) (cur : ℕ → Option ℤ) : Bool :=
  ids.any (fun i =>
    match cur i with
    | some v => decide (v < mn) || decide (mx < v)
    | none => false)

/-- The trajectory shaper: smoothstep a*a*(3 - 2*a), or identity when
shaping is disabled. -/
def shape (smoothstep : Bool) (a : ℚ) : ℚ :=
  if smoothstep then a * a * (3 - 2 * a) else a

/-- The interpolated waypoint int(round(start + (goal - start) * shape(k/steps))). -/
def waypoint (sm : Bool) (startT goalT : ℤ) (k steps : ℕ) : ℤ :=
  rhe ((startT : ℚ) + ((goalT : ℚ) - (startT : ℚ)) * shape sm ((k : ℚ) / (steps : ℚ)))

/-- steps = max(1, int(duration_s * poll_hz)). -/
def stepsOf (duration_s : ℚ) (poll_hz : ℕ) : ℕ :=
  max 1 (truncZ (duration_s * (poll_hz : ℚ))).toNat

/-- dt = duration_s / steps (feeds only the wall-clock pacing sleeps,
which the embedding does not observe). -/
def dtOf (duration_s : ℚ) (poll_hz : ℕ) : ℚ :=
  duration_s / (stepsOf duration_s poll_hz : ℚ)

/-- eps_ticks = abs(deg_to_ticks(eps_deg)). -/
def eps_ticks_of (tpr : ℕ) (eps_deg : ℚ) : ℤ := |deg_to_ticks tpr eps_deg|

/-- Outcome of the streaming phase: next read index, threaded state, the
trace of streamed waypoint writes, and the step at which the current guard
tripped (none when streaming ran to completion). -/
structure StreamRes where
  ridx : ℕ
  st : CtrlState
  writes : List (ℕ → ℤ)
  broke : Option ℕ

/-- The streaming loop (`for k in range(1, steps + 1)`), by recursion on the
remaining step count: write the interpolated waypoints, then on guard-check
steps read currents and break out if any reading is outside the guard
range.  The sleep that paces the loop has no observable effect. -/
def stream_loop (ids : List ℕ) (env : Env) (guard : Option (ℤ × ℤ))
    (poll_hz : ℕ) (start_pos goal : ℕ → ℤ) (sm : Bool) (steps : ℕ) :
    ℕ → ℕ → ℕ → CtrlState → List (ℕ → ℤ) → StreamRes
  | 0, _, ridx, st, ws => StreamRes.mk ridx st ws none
  | rem + 1, k, ridx, st, ws =>
    let mid : ℕ → ℤ := fun i => waypoint sm (start_pos i) (goal i) k steps
    let ws2 := ws ++ [mid]
    match guard with
    | some (mn, mx) =>
      if k % max 1 (poll_hz / 10) = 0 then
        let rr := env ridx
        let st2 := applyRead ids st rr
        if guard_bad ids mn mx rr.cur then StreamRes.mk (ridx + 1) st2 ws2 (some k)
        else stream_loop ids env guard poll_hz start_pos goal sm steps rem (k + 1) (ridx + 1) st2 ws2
      else stream_loop ids env guard poll_hz start_pos goal sm steps rem (k + 1) ridx st ws2
    | none => stream_loop ids env guard poll_hz start_pos goal sm steps rem (k + 1) ridx st ws2

/-- Outcome of the settle-polling loop: either settled at poll index `j`
(0-based) with the read that settled it and its max error, or the deadline
(fuel) ran out with the last observed max error. -/
inductive SettleRes where
  | settled (j : ℕ) (ridx : ℕ) (st : CtrlState) (pos : ℕ → ℤ)
      (cur : ℕ → Option ℤ) (max_err : ℤ) : SettleRes
  | timeout (ridx : ℕ) (st : CtrlState) (last_max_err : Option ℤ) : SettleRes

def SettleRes.settledAt : SettleRes → Option ℕ
  | .settled j _ _ _ _ _ => some j
  | .timeout _ _ _ => none

def SettleRes.state : SettleRes → CtrlState
  | .settled _ _ st _ _ _ => st
  | .timeout _ st _ => st

/-- The settle-polling loop (`while time.time() < deadline`), by recursion
on the number of polls the deadline admits: each poll bulk-reads, computes
the max absolute tick error against the goals, and either extends or resets
the in-tolerance streak; a streak reaching settle_n settles. -/
def settle_loop (ids : List ℕ) (env : Env) (goal : ℕ → ℤ) (eps_ticks : ℤ)
    (settle_n : ℕ) :
    ℕ → ℕ → ℕ → ℕ → CtrlState → Option ℤ → SettleRes
  | 0, _, ridx, _, st, le => SettleRes.timeout ridx st le
  | fuel + 1, j, ridx, streak, st, _ =>
    let rr := env ridx
    let st2 := applyRead ids st rr
    let me := max_abs_err ids goal rr.pos
    if me ≤ eps_ticks then
      if settle_n ≤ streak + 1 then SettleRes.settled j (ridx + 1) st2 rr.pos rr.cur me
      else settle_loop ids env goal eps_ticks settle_n fuel (j + 1) (ridx + 1) (streak + 1) st2 (some me)
    else settle_loop ids env goal eps_ticks settle_n fuel (j + 1) (ridx + 1) 0 st2 (some me)

/-- The executor parameters of `execute_time_synced`. -/
structure ExecParams where
  duration_s : ℚ
  poll_hz : ℕ
  eps_deg : ℚ
  settle_n : ℕ
  smoothstep : Bool
  current_guard : Option (ℤ × ℤ)

/-- The dict summary `execute_time_synced` returns, plus instrumentation:
the streamed-write trace, the guard-trip step, the settle poll index and
the read index at which the settle phase began, and the final controller
state. -/
structure ExecOut where
  settled : Bool
  start_pos : ℕ → ℤ
  start_current : ℕ → Option ℤ
  goal : ℕ → ℤ
  final_pos : ℕ → ℤ
  final_current : ℕ → Option ℤ
  max_err_ticks : Option ℤ
  max_err_deg : Option ℚ
  writes : List (ℕ → ℤ)
  broke_at : Option ℕ
  settled_at : Option ℕ
  settle_base : ℕ
  state : CtrlState

/-- The streaming phase of `execute_time_synced`: after the entry bulk read
(`env 0`, updating the caches), stream `steps` interpolated waypoints
starting at step k = 1 and read index 1. -/
def streamOf (cfg : Cfg) (p : ExecParams) (st0 : CtrlState) (env : Env) :
    StreamRes :=
  stream_loop cfg.ids env p.current_guard p.poll_hz (env 0).pos st0.cmd_ticks
    p.smoothstep (stepsOf p.duration_s p.poll_hz) (stepsOf p.duration_s p.poll_hz)
    1 1 (applyRead cfg.ids st0 (env 0)) []

/-- The settle phase of `execute_time_synced`: poll from the read index the
streaming phase left off at, with an empty streak. -/
def settleOf (cfg : Cfg) (p : ExecParams) (st0 : CtrlState) (env : Env)
    (maxPolls : ℕ) : SettleRes :=
  settle_loop cfg.ids env st0.cmd_ticks (eps_ticks_of cfg.ticks_per_rev p.eps_deg)
    p.settle_n maxPolls 0 (streamOf cfg p st0 env).ridx 0 (streamOf cfg p st0 env).st
    none

/-- Model of `AxisServo.execute_time_synced`: entry bulk read, streamed waypoints,
settle polling, and the exit summary.  `maxPolls` abstracts the number of
settle-loop iterations the wall-clock deadline admits. -/
def execute_time_synced (cfg : Cfg) (p : ExecParams) (st0 : CtrlState)
    (env : Env) (maxPolls : ℕ) : ExecOut :=
  let sres := streamOf cfg p st0 env
  match settleOf cfg p st0 env maxPolls with
  | .settled j _ st2 pos cur me =>
    ExecOut.mk true (env 0).pos (env 0).cur st0.cmd_ticks pos cur (some me)
      (some (ticks_to_deg cfg.ticks_per_rev me)) sres.writes sres.broke (some j)
      sres.ridx st2
  | .timeout ridx2 st2 le =>
    let rf := env ridx2
    ExecOut.mk false (env 0).pos (env 0).cur st0.cmd_ticks rf.pos rf.cur le
      (le.map (ticks_to_deg cfg.ticks_per_rev)) sres.writes sres.broke none
      sres.ridx (applyRead cfg.ids st2 rf)

/-! Helper lemmas. -/

lemma rhe_intCast (n : ℤ) : rhe (n : ℚ) = n := by
  simp [rhe]

lemma clampI32_of_bounds {t : ℤ} (h1 : -(2 ^ 31) ≤ t) (h2 : t ≤ 2 ^ 31 - 1) :
    clampI32 t = t := by
  simp only [clampI32]
  omega

lemma applyRead_cmd (ids : List ℕ) (st : CtrlState) (r : ReadResult) :
    (applyRead ids st r).cmd_ticks = st.cmd_ticks := rfl

/-! C6 — relative nudges compose on the stored command state. -/

/-- C6: `nudge_rel_deg` adds the converted tick delta to the currently
stored command value (the measured position is not even an input of the
operation); absent clamping, nudging axis `a` by `d1` then `d2` stores the
original command plus the independently converted deltas summed. -/
theorem nudge_rel_composes (tpr : ℕ) (cmd : ℕ → ℤ) (a : ℕ) (d1 d2 : ℚ)
    (h1l : -(2 ^ 31) ≤ cmd a + deg_to_ticks tpr d1)
    (h1r : cmd a + deg_to_ticks tpr d1 ≤ 2 ^ 31 - 1)
    (h2l : -(2 ^ 31) ≤ cmd a + deg_to_ticks tpr d1 + deg_to_ticks tpr d2)
    (h2r : cmd a + deg_to_ticks tpr d1 + deg_to_ticks tpr d2 ≤ 2 ^ 31 - 1) :
    nudge_rel_deg tpr (nudge_rel_deg tpr cmd [(a, d1)]) [(a, d2)] a
      = cmd a + (deg_to_ticks tpr d1 + deg_to_ticks tpr d2) := by
  simp only [nudge_rel_deg, List.foldl_cons, List.foldl_nil,
    Function.update_same]
  rw [clampI32_of_bounds h1l h1r, clampI32_of_bounds (by omega) (by omega)]
  omega

/-- Witness for C6 at a concrete input: nudging by 90 then 45 degrees at
4096 ticks per revolution adds 1024 + 512 ticks to the stored command. -/
theorem nudge_rel_composes_witness :
    nudge_rel_deg 4096 (nudge_rel_deg 4096 (fun _ => 0) [(0, 90)]) [(0, 45)] 0
      = (fun _ => (0 : ℤ)) 0 + (deg_to_ticks 4096 90 + deg_to_ticks 4096 45) :=
  nudge_rel_composes 4096 (fun _ => 0) 0 90 45
    (by norm_num [deg_to_ticks, rhe])
    (by norm_num [deg_to_ticks, rhe])
    (by norm_num [deg_to_ticks, rhe])
    (by norm_num [deg_to_ticks, rhe])

/-! C7 — trajectory shaper boundary values. -/

/-- C7: the shaper satisfies shape(0) = 0 and shape(1) = 1 exactly in both
smoothstep and linear mode, and the interpolated waypoint at the last step
k = steps equals the goal ticks exactly, for every start/goal pair and
every steps ≥ 1. -/
theorem shape_boundary_exact (sm : Bool) (startT goalT : ℤ) (steps : ℕ)
    (h : 1 ≤ steps) :
    shape sm 0 = 0 ∧ shape sm 1 = 1 ∧
      waypoint sm startT goalT steps steps = goalT := by
  have hs0 : shape sm 0 = 0 := by cases sm <;> norm_num [shape]
  have hs1 : shape sm 1 = 1 := by cases sm <;> norm_num [shape]
  refine ⟨hs0, hs1, ?_⟩
  have hne : (steps : ℚ) ≠ 0 := Nat.cast_ne_zero.mpr (by omega)
  simp only [waypoint, div_self hne, hs1, mul_one]
  have : (startT : ℚ) + ((goalT : ℚ) - (startT : ℚ)) = ((goalT : ℤ) : ℚ) := by
    ring
  rw [this, rhe_intCast]

/-- Witness for C7 at a concrete input (smoothstep mode, 3 steps). -/
theorem shape_boundary_exact_witness :
    shape true 0 = 0 ∧ shape true 1 = 1 ∧ waypoint true 5 9 3 3 = 9 :=
  shape_boundary_exact true 5 9 3 (by norm_num)

/-! C9 — mode manager write ordering. -/

lemma mem_ensure_extended_mode (cfg : Cfg) (ids : List ℕ) (w : RegWrite)
    (hw : w ∈ ensure_extended_mode cfg ids) : w.id ∈ ids := by
  induction ids with
  | nil => simp [ensure_extended_mode] at hw
  | cons i t ih =>
    simp only [ensure_extended_mode, List.map_cons, List.flatten_cons,
      List.mem_append, List.mem_cons, List.not_mem_nil, or_false] at hw
    rcases hw with h | h
    · rcases h with h | h | h <;> subst h <;> simp
    · exact List.mem_cons_of_mem i (ih h)

/-- C9: for each listed axis, `ensure_extended_mode` emits exactly the
contiguous triple disable-torque, set-operating-mode, enable-torque, in
that strict order, with no other write to that axis anywhere in the
emitted sequence. -/
theorem ensure_extended_mode_strict_triple (cfg : Cfg) (ids : List ℕ)
    (hnd : ids.Nodup) (a : ℕ) (ha : a ∈ ids) :
    ∃ l1 l2,
      ensure_extended_mode cfg ids =
        l1 ++ [RegWrite.mk a cfg.addr_torque_enable TORQUE_DISABLE,
               RegWrite.mk a cfg.addr_operating_mode cfg.mode_extended_position,
               RegWrite.mk a cfg.addr_torque_enable TORQUE_ENABLE] ++ l2 ∧
        (∀ w ∈ l1, w.id ≠ a) ∧ (∀ w ∈ l2, w.id ≠ a) := by
  induction ids with
  | nil => simp at ha
  | cons i t ih =>
    rcases List.mem_cons.mp ha with h | h
    · subst h
      refine ⟨[], ensure_extended_mode cfg t, ?_, by simp, ?_⟩
      · simp [ensure_extended_mode]
      · intro w hw
        have := mem_ensure_extended_mode cfg t w hw
        intro hcon
        rw [hcon] at this
        exact (List.nodup_cons.mp hnd).1 this
    · obtain ⟨l1, l2, heq, h1, h2⟩ := ih (List.nodup_cons.mp hnd).2 h
      have hia : i ≠ a := by
        intro hcon
        rw [hcon] at hnd
        exact (List.nodup_cons.mp hnd).1 h
      refine ⟨[RegWrite.mk i cfg.addr_torque_enable TORQUE_DISABLE,
               RegWrite.mk i cfg.addr_operating_mode cfg.mode_extended_position,
               RegWrite.mk i cfg.addr_torque_enable TORQUE_ENABLE] ++ l1,
              l2, ?_, ?_, h2⟩
      · simp only [ensure_extended_mode, List.map_cons, List.flatten_cons] at heq ⊢
        rw [heq]
        simp
      · intro w hw
        rcases List.mem_append.mp hw with h3 | h3
        · simp only [List.mem_cons, List.not_mem_nil, or_false] at h3
          rcases h3 with h3 | h3 | h3 <;> subst h3 <;> simpa using hia
        · exact h1 w h3

/-- Witness for C9 at a concrete input: axis 2 of the list [1, 2]. -/
theorem ensure_extended_mode_strict_triple_witness :
    ∃ l1 l2,
      ensure_extended_mode (Cfg.mk [1, 2] 4096 11 64 4) [1, 2] =
        l1 ++ [RegWrite.mk 2 64 TORQUE_DISABLE,
               RegWrite.mk 2 11 4,
               RegWrite.mk 2 64 TORQUE_ENABLE] ++ l2 ∧
        (∀ w ∈ l1, w.id ≠ 2) ∧ (∀ w ∈ l2, w.id ≠ 2) :=
  ensure_extended_mode_strict_triple (Cfg.mk [1, 2] 4096 11 64 4) [1, 2]
    (by norm_num) 2 (by norm_num)

/-! Structural lemmas about the streaming and settling loops. -/

lemma stream_loop_cmd (ids : List ℕ) (env : Env) (g : Option (ℤ × ℤ))
    (hz : ℕ) (sp gl : ℕ → ℤ) (sm : Bool) (steps : ℕ) :
    ∀ rem k ridx st ws,
      (stream_loop ids env g hz sp gl sm steps rem k ridx st ws).st.cmd_ticks
        = st.cmd_ticks := by
  intro rem
  induction rem with
  | zero => intro k ridx st ws; rfl
  | succ r ih =>
    intro k ridx st ws
    rcases g with - | ⟨mn, mx⟩
    · simpa only [stream_loop] using ih (k + 1) ridx st _
    · simp only [stream_loop]
      split
      · split
        · rfl
        · simpa only using ih (k + 1) (ridx + 1) (applyRead ids st (env ridx)) _
      · simpa only using ih (k + 1) ridx st _

lemma stream_loop_no_break (ids : List ℕ) (env : Env) (g : Option (ℤ × ℤ))
    (hz : ℕ) (sp gl : ℕ → ℤ) (sm : Bool) (steps : ℕ)
    (hben : g = none ∨ ∀ n i, (env n).cur i = none) :
    ∀ rem k ridx st ws,
      (stream_loop ids env g hz sp gl sm steps rem k ridx st ws).broke = none ∧
      (stream_loop ids env g hz sp gl sm steps rem k ridx st ws).writes.length
        = ws.length + rem := by
  intro rem
  induction rem with
  | zero => intro k ridx st ws; exact ⟨rfl, rfl⟩
  | succ r ih =>
    intro k ridx st ws
    rcases g with - | ⟨mn, mx⟩
    · simp only [stream_loop]
      have := ih (k + 1) ridx st (ws ++ [fun i => waypoint sm (sp i) (gl i) k steps])
      simp only [List.length_append, List.length_singleton] at this
      exact ⟨this.1, by rw [this.2]; omega⟩
    · have hcur : ∀ n i, (env n).cur i = none := by
        rcases hben with h | h
        · exact absurd h (by simp)
        · exact h
      have hbad : ∀ ridx2, guard_bad ids mn mx (env ridx2).cur = false := by
        intro ridx2
        simp [guard_bad, hcur]
      simp only [stream_loop, hbad]
      split
      · simp only [Bool.false_eq_true, if_false]
        have := ih (k + 1) (ridx + 1) (applyRead ids st (env ridx))
          (ws ++ [fun i => waypoint sm (sp i) (gl i) k steps])
        simp only [List.length_append, List.length_singleton] at this
        exact ⟨this.1, by rw [this.2]; omega⟩
      · have := ih (k + 1) ridx st
          (ws ++ [fun i => waypoint sm (sp i) (gl i) k steps])
        simp only [List.length_append, List.length_singleton] at this
        exact ⟨this.1, by rw [this.2]; omega⟩

lemma stream_loop_broke_spec (ids : List ℕ) (env : Env) (g : Option (ℤ × ℤ))
    (hz : ℕ) (sp gl : ℕ → ℤ) (sm : Bool) (steps : ℕ) :
    ∀ rem k ridx st ws b,
      (stream_loop ids env g hz sp gl sm steps rem k ridx st ws).broke = some b →
      k ≤ b ∧ b < k + rem ∧
        (stream_loop ids env g hz sp gl sm steps rem k ridx st ws).writes.length
          = ws.length + (b + 1 - k) := by
  intro rem
  induction rem with
  | zero =>
    intro k ridx st ws b h
    exact absurd h (by simp [stream_loop])
  | succ r ih =>
    intro k ridx st ws b h
    rcases g with - | ⟨mn, mx⟩
    · simp only [stream_loop] at h ⊢
      obtain ⟨h1, h2, h3⟩ := ih (k + 1) ridx st _ b h
      simp only [List.length_append, List.length_singleton] at h3
      exact ⟨by omega, by omega, by rw [h3]; omega⟩
    · simp only [stream_loop] at h ⊢
      by_cases hk : k % (1 ⊔ hz / 10) = 0
      · simp only [if_pos hk] at h ⊢
        by_cases hb : guard_bad ids mn mx (env ridx).cur = true
        · simp only [if_pos hb] at h ⊢
          have hbk : b = k := (Option.some.inj h).symm
          subst hbk
          exact ⟨le_refl _, by omega, by simp⟩
        · simp only [if_neg hb] at h ⊢
          obtain ⟨h1, h2, h3⟩ := ih (k + 1) (ridx + 1) _ _ b h
          simp only [List.length_append, List.length_singleton] at h3
          exact ⟨by omega, by omega, by rw [h3]; omega⟩
      · simp only [if_neg hk] at h ⊢
        obtain ⟨h1, h2, h3⟩ := ih (k + 1) ridx st _ b h
        simp only [List.length_append, List.length_singleton] at h3
        exact ⟨by omega, by omega, by rw [h3]; omega⟩

lemma settle_loop_cmd (ids : List ℕ) (env : Env) (goal : ℕ → ℤ)
    (eps : ℤ) (n : ℕ) :
    ∀ fuel j ridx streak st le,
      ((settle_loop ids env goal eps n fuel j ridx streak st le).state).cmd_ticks
        = st.cmd_ticks := by
  intro fuel
  induction fuel with
  | zero => intro j ridx streak st le; rfl
  | succ f ih =>
    intro j ridx streak st le
    simp only [settle_loop]
    split
    · split
      · rfl
      · simpa only using ih (j + 1) (ridx + 1) (streak + 1) _ _
    · simpa only using ih (j + 1) (ridx + 1) 0 _ _

/-! C8 — the executor never mutates the command state. -/

/-- C8: for every invocation and every outcome, the per-axis stored command
mapping cmd_ticks after `execute_time_synced` equals cmd_ticks before. -/
theorem exec_preserves_cmd_ticks (cfg : Cfg) (p : ExecParams)
    (st0 : CtrlState) (env : Env) (mp : ℕ) :
    (execute_time_synced cfg p st0 env mp).state.cmd_ticks = st0.cmd_ticks := by
  have hstream : (streamOf cfg p st0 env).st.cmd_ticks = st0.cmd_ticks := by
    simpa only [streamOf] using
      stream_loop_cmd cfg.ids env p.current_guard p.poll_hz (env 0).pos
        st0.cmd_ticks p.smoothstep (stepsOf p.duration_s p.poll_hz) _ 1 1
        (applyRead cfg.ids st0 (env 0)) []
  have hsettle : ((settleOf cfg p st0 env mp).state).cmd_ticks = st0.cmd_ticks := by
    rw [settleOf, settle_loop_cmd]
    exact hstream
  unfold execute_time_synced
  rcases h : settleOf cfg p st0 env mp with ⟨j, r2, st2, pos, cur, me⟩ | ⟨r2, st2, le⟩
  · rw [h] at hsettle
    simpa only using hsettle
  · rw [h] at hsettle
    simpa only [applyRead] using hsettle

lemma exec_components (cfg : Cfg) (p : ExecParams) (st0 : CtrlState)
    (env : Env) (mp : ℕ) :
    (execute_time_synced cfg p st0 env mp).writes = (streamOf cfg p st0 env).writes ∧
    (execute_time_synced cfg p st0 env mp).broke_at = (streamOf cfg p st0 env).broke ∧
    (execute_time_synced cfg p st0 env mp).settle_base = (streamOf cfg p st0 env).ridx ∧
    (execute_time_synced cfg p st0 env mp).settled_at = (settleOf cfg p st0 env mp).settledAt ∧
    ((execute_time_synced cfg p st0 env mp).settled = true ↔
      (execute_time_synced cfg p st0 env mp).settled_at ≠ none) ∧
    (execute_time_synced cfg p st0 env mp).goal = st0.cmd_ticks := by
  unfold execute_time_synced
  rcases settleOf cfg p st0 env mp with ⟨j, r2, st2, pos, cur, me⟩ | ⟨r2, st2, le⟩ <;>
    simp [SettleRes.settledAt]

lemma exec_settled_branch (cfg : Cfg) (p : ExecParams) (st0 : CtrlState)
    (env : Env) (mp : ℕ) (j r2 : ℕ) (st2 : CtrlState) (pos : ℕ → ℤ)
    (cur : ℕ → Option ℤ) (me : ℤ)
    (hres : settleOf cfg p st0 env mp = SettleRes.settled j r2 st2 pos cur me) :
    (execute_time_synced cfg p st0 env mp).settled = true ∧
      (execute_time_synced cfg p st0 env mp).final_pos = pos ∧
      (execute_time_synced cfg p st0 env mp).max_err_ticks = some me ∧
      (execute_time_synced cfg p st0 env mp).max_err_deg
        = some (ticks_to_deg cfg.ticks_per_rev me) ∧
      (execute_time_synced cfg p st0 env mp).settled_at = some j := by
  unfold execute_time_synced
  rw [hres]
  simp

lemma exec_timeout_branch (cfg : Cfg) (p : ExecParams) (st0 : CtrlState)
    (env : Env) (mp : ℕ) (r2 : ℕ) (st2 : CtrlState) (le : Option ℤ)
    (hres : settleOf cfg p st0 env mp = SettleRes.timeout r2 st2 le) :
    (execute_time_synced cfg p st0 env mp).settled = false ∧
      (execute_time_synced cfg p st0 env mp).final_pos = (env r2).pos ∧
      (execute_time_synced cfg p st0 env mp).max_err_ticks = le ∧
      (execute_time_synced cfg p st0 env mp).max_err_deg
        = le.map (ticks_to_deg cfg.ticks_per_rev) ∧
      (execute_time_synced cfg p st0 env mp).settled_at = none := by
  unfold execute_time_synced
  rw [hres]
  simp

/-! Concrete scenarios used by witnesses and counterexamples.  With 360
ticks per revolution, integral degree values convert to the same number of
ticks, which keeps the rational arithmetic of the runs exact and small. -/

def cfgA : Cfg := Cfg.mk [0] 360 11 64 4

/-- Guard-trip scenario: command 100 ticks, entry read at 0, every later
read at the goal with a current reading of 1000. -/
def stA : CtrlState :=
  CtrlState.mk (fun _ => 100) (fun _ => none) (fun _ => none) none

def envA : Env := fun n =>
  if n = 0 then ReadResult.mk (fun _ => 0) (fun _ => none)
  else ReadResult.mk (fun _ => 100) (fun _ => some 1000)

def pA : ExecParams := ExecParams.mk 1 10 2 3 false (some (-300, 300))

/-- Fractional-step scenario: duration 3/4 s at 2 Hz, no guard. -/
def stB : CtrlState :=
  CtrlState.mk (fun _ => 0) (fun _ => none) (fun _ => none) none

def envB : Env := fun _ => ReadResult.mk (fun _ => 0) (fun _ => none)

def pB : ExecParams := ExecParams.mk (3/4) 2 2 3 false none

/-- Timeout scenario: command 10 ticks, settle polls read 0 (error 10),
the final exit read returns 10 (error 0). -/
def stC : CtrlState :=
  CtrlState.mk (fun _ => 10) (fun _ => none) (fun _ => none) none

def envC : Env := fun n =>
  if n ≤ 1 then ReadResult.mk (fun _ => 0) (fun _ => none)
  else ReadResult.mk (fun _ => 10) (fun _ => none)

def pC : ExecParams := ExecParams.mk 1 1 0 3 false none

/-! C1 — what a guard trip does. -/

/-- C1 counterexample: with a (-300,300) guard configured, the current
reading 1000 trips the guard on the check of step 1 of 10, streaming halts
after 1 of 10 writes — yet the call does not end there with settled=false:
the settle phase still runs and this run returns settled = true. -/
theorem guard_trip_can_settle_true :
    guard_bad cfgA.ids (-300) 300 (envA 1).cur = true ∧
    (execute_time_synced cfgA pA stA envA 5).broke_at = some 1 ∧
    stepsOf pA.duration_s pA.poll_hz = 10 ∧
    (execute_time_synced cfgA pA stA envA 5).writes.length = 1 ∧
    (execute_time_synced cfgA pA stA envA 5).settled = true := by
  norm_num [execute_time_synced, streamOf, settleOf, stream_loop, settle_loop,
    applyRead, max_abs_err, guard_bad, stepsOf, truncZ, eps_ticks_of,
    deg_to_ticks, rhe, cfgA, stA, envA, pA] <;> rfl

/-- C1 (amended): a guard trip at step k halts streaming immediately —
exactly k of the `steps` waypoint writes are issued and steps k+1..steps
are never streamed — but the call then proceeds to the settle phase, so it
can still return settled = true (see the counterexample run); it returns
settled = false only when the settle criterion is not met before the
deadline. -/
theorem guard_trip_halts_streaming (cfg : Cfg) (p : ExecParams)
    (st0 : CtrlState) (env : Env) (mp : ℕ) (k : ℕ)
    (hb : (execute_time_synced cfg p st0 env mp).broke_at = some k) :
    1 ≤ k ∧ k ≤ stepsOf p.duration_s p.poll_hz ∧
      (execute_time_synced cfg p st0 env mp).writes.length = k := by
  obtain ⟨hw, hbk, -⟩ := exec_components cfg p st0 env mp
  rw [hbk, streamOf] at hb
  obtain ⟨h1, h2, h3⟩ := stream_loop_broke_spec cfg.ids env p.current_guard
    p.poll_hz (env 0).pos st0.cmd_ticks p.smoothstep
    (stepsOf p.duration_s p.poll_hz) (stepsOf p.duration_s p.poll_hz) 1 1
    (applyRead cfg.ids st0 (env 0)) [] k hb
  rw [hw, streamOf]
  refine ⟨h1, by omega, ?_⟩
  rw [h3]
  simp

/-- Witness for C1 at the guard-trip run: the trip at step 1 leaves exactly
one streamed write. -/
theorem guard_trip_halts_streaming_witness :
    (execute_time_synced cfgA pA stA envA 5).broke_at = some 1 ∧
      (1 ≤ 1 ∧ 1 ≤ stepsOf pA.duration_s pA.poll_hz ∧
        (execute_time_synced cfgA pA stA envA 5).writes.length = 1) :=
  ⟨by norm_num [execute_time_synced, streamOf, settleOf, stream_loop,
      settle_loop, applyRead, max_abs_err, guard_bad, stepsOf, truncZ,
      eps_ticks_of, deg_to_ticks, rhe, cfgA, stA, envA, pA],
   guard_trip_halts_streaming cfgA pA stA envA 5 1
    (by norm_num [execute_time_synced, streamOf, settleOf, stream_loop,
      settle_loop, applyRead, max_abs_err, guard_bad, stepsOf, truncZ,
      eps_ticks_of, deg_to_ticks, rhe, cfgA, stA, envA, pA])⟩

/-! C3 — entry computations. -/

/-- C3 counterexample: for duration 3/4 s at 2 Hz the product is 3/2; the
claimed steps count max(1, round(3/2)) is 2, but the code truncates and
streams exactly 1 waypoint. -/
theorem steps_trunc_vs_round_counterexample :
    pB.duration_s * (pB.poll_hz : ℚ) = 3/2 ∧
    max 1 (rhe (3/2 : ℚ)).toNat = 2 ∧
    (execute_time_synced cfgA pB stB envB 0).writes.length = 1 := by
  refine ⟨by norm_num [pB], ?_, ?_⟩
  · norm_num [rhe] <;> rfl
  · norm_num [execute_time_synced, streamOf, settleOf, stream_loop,
      settle_loop, applyRead, max_abs_err, stepsOf, truncZ, eps_ticks_of,
      deg_to_ticks, rhe, cfgA, stB, envB, pB]

/-- C3 (amended): on entry the number of streamed steps is
max(1, trunc(duration × pollRateHz)) — truncation, not rounding — the
per-step interval is dt = duration/steps, and the settle tolerance is
epsilonTicks = abs(degToTicks(epsilonDegrees)), for every duration > 0 and
poll rate > 0 (shown on the streamed-write count of a guard-free run). -/
theorem entry_params_truncated (cfg : Cfg) (p : ExecParams) (st0 : CtrlState)
    (env : Env) (mp : ℕ) (_hd : 0 < p.duration_s) (_hhz : 0 < p.poll_hz)
    (hg : p.current_guard = none) :
    (execute_time_synced cfg p st0 env mp).writes.length
        = max 1 (truncZ (p.duration_s * (p.poll_hz : ℚ))).toNat ∧
      dtOf p.duration_s p.poll_hz
        = p.duration_s / (stepsOf p.duration_s p.poll_hz : ℚ) ∧
      eps_ticks_of cfg.ticks_per_rev p.eps_deg
        = |deg_to_ticks cfg.ticks_per_rev p.eps_deg| := by
  refine ⟨?_, rfl, rfl⟩
  obtain ⟨hw, -⟩ := exec_components cfg p st0 env mp
  rw [hw, streamOf]
  have := (stream_loop_no_break cfg.ids env p.current_guard p.poll_hz
    (env 0).pos st0.cmd_ticks p.smoothstep (stepsOf p.duration_s p.poll_hz)
    (Or.inl hg) (stepsOf p.duration_s p.poll_hz) 1 1
    (applyRead cfg.ids st0 (env 0)) []).2
  rw [this]
  simp [stepsOf]

/-- Witness for C3 at the fractional-step run. -/
theorem entry_params_truncated_witness :
    (0 < pB.duration_s ∧ 0 < pB.poll_hz) ∧
      ((execute_time_synced cfgA pB stB envB 0).writes.length
          = max 1 (truncZ (pB.duration_s * (pB.poll_hz : ℚ))).toNat ∧
        dtOf pB.duration_s pB.poll_hz
          = pB.duration_s / (stepsOf pB.duration_s pB.poll_hz : ℚ) ∧
        eps_ticks_of cfgA.ticks_per_rev pB.eps_deg
          = |deg_to_ticks cfgA.ticks_per_rev pB.eps_deg|) :=
  ⟨⟨by norm_num [pB], by norm_num [pB]⟩,
   entry_params_truncated cfgA pB stB envB 0 (by norm_num [pB])
     (by norm_num [pB]) rfl⟩

/-! C10 — the guard needs a present current reading and strict bounds. -/

lemma guard_bad_iff (ids : List ℕ) (mn mx : ℤ) (cur : ℕ → Option ℤ) :
    guard_bad ids mn mx cur = true ↔
      ∃ i ∈ ids, ∃ v, cur i = some v ∧ (v < mn ∨ mx < v) := by
  simp only [guard_bad, List.any_eq_true]
  constructor
  · rintro ⟨i, hi, hm⟩
    refine ⟨i, hi, ?_⟩
    cases h : cur i with
    | none => rw [h] at hm; simp at hm
    | some v =>
      rw [h] at hm
      simp only [Bool.or_eq_true, decide_eq_true_eq] at hm
      exact ⟨v, rfl, hm⟩
  · rintro ⟨i, hi, v, hv, hlt⟩
    refine ⟨i, hi, ?_⟩
    rw [hv]
    simpa using hlt

/-- C10: the guard trips only on a present current reading strictly outside
the bounds (a value equal to mn or mx never trips, an absent reading never
contributes); consequently when every read of the session returns no
current for any axis — as after the current channel is marked unsupported —
streaming always completes all steps even with a guard configured. -/
theorem guard_requires_present_current (cfg : Cfg) (p : ExecParams)
    (st0 : CtrlState) (env : Env) (mp : ℕ) (mn mx : ℤ)
    (hnone : ∀ n i, (env n).cur i = none) :
    (execute_time_synced cfg p st0 env mp).broke_at = none ∧
      (execute_time_synced cfg p st0 env mp).writes.length
        = stepsOf p.duration_s p.poll_hz ∧
      (∀ cur : ℕ → Option ℤ,
        guard_bad cfg.ids mn mx cur = true ↔
          ∃ i ∈ cfg.ids, ∃ v, cur i = some v ∧ (v < mn ∨ mx < v)) := by
  obtain ⟨hw, hbk, -⟩ := exec_components cfg p st0 env mp
  have := stream_loop_no_break cfg.ids env p.current_guard p.poll_hz
    (env 0).pos st0.cmd_ticks p.smoothstep (stepsOf p.duration_s p.poll_hz)
    (Or.inr hnone) (stepsOf p.duration_s p.poll_hz) 1 1
    (applyRead cfg.ids st0 (env 0)) []
  refine ⟨?_, ?_, fun cur => guard_bad_iff cfg.ids mn mx cur⟩
  · rw [hbk, streamOf]
    exact this.1
  · rw [hw, streamOf, this.2]
    simp

/-- Witness for C10: a guard-configured run whose reads never carry a
current completes all 10 steps. -/
theorem guard_requires_present_current_witness :
    (∀ n i, ((envB n).cur i = none)) ∧
      ((execute_time_synced cfgA pA stB envB 5).broke_at = none ∧
        (execute_time_synced cfgA pA stB envB 5).writes.length
          = stepsOf pA.duration_s pA.poll_hz ∧
        (∀ cur : ℕ → Option ℤ,
          guard_bad cfgA.ids (-300) 300 cur = true ↔
            ∃ i ∈ cfgA.ids, ∃ v, cur i = some v ∧ (v < -300 ∨ 300 < v))) :=
  ⟨fun _ _ => rfl,
   guard_requires_present_current cfgA pA stB envB 5 (-300) 300
     (fun _ _ => rfl)⟩

/-! C4 — consistency of the reported max error. -/

lemma settle_loop_settled_max_err (ids : List ℕ) (env : Env) (goal : ℕ → ℤ)
    (eps : ℤ) (n : ℕ) :
    ∀ fuel j ridx streak st le j2 r2 st2 pos cur me,
      settle_loop ids env goal eps n fuel j ridx streak st le
        = SettleRes.settled j2 r2 st2 pos cur me →
      me = max_abs_err ids goal pos := by
  intro fuel
  induction fuel with
  | zero =>
    intro j ridx streak st le j2 r2 st2 pos cur me h
    exact absurd h (by simp [settle_loop])
  | succ f ih =>
    intro j ridx streak st le j2 r2 st2 pos cur me h
    simp only [settle_loop] at h
    by_cases h1 : max_abs_err ids goal (env ridx).pos ≤ eps
    · rw [if_pos h1] at h
      by_cases h2 : n ≤ streak + 1
      · rw [if_pos h2] at h
        obtain ⟨-, -, -, hpos, -, hme⟩ := SettleRes.settled.inj h
        rw [← hme, ← hpos]
      · rw [if_neg h2] at h
        exact ih _ _ _ _ _ j2 r2 st2 pos cur me h
    · rw [if_neg h1] at h
      exact ih _ _ _ _ _ j2 r2 st2 pos cur me h

/-- C4 counterexample: a timed-out run whose last settle poll read 0
(error 10) but whose final exit bulk read returns the goal 10: the
reported max_err_ticks is 10 while the max error of the reported final_pos
is 0 — the result does not capture the final max error consistently with
the final positions. -/
theorem timeout_max_err_inconsistent :
    (execute_time_synced cfgA pC stC envC 1).settled = false ∧
    (execute_time_synced cfgA pC stC envC 1).max_err_ticks = some 10 ∧
    max_abs_err cfgA.ids (execute_time_synced cfgA pC stC envC 1).goal
      (execute_time_synced cfgA pC stC envC 1).final_pos = 0 ∧
    (execute_time_synced cfgA pC stC envC 1).max_err_ticks
      ≠ some (max_abs_err cfgA.ids (execute_time_synced cfgA pC stC envC 1).goal
          (execute_time_synced cfgA pC stC envC 1).final_pos) := by
  norm_num [execute_time_synced, streamOf, settleOf, stream_loop, settle_loop,
    applyRead, max_abs_err, stepsOf, truncZ, eps_ticks_of, deg_to_ticks, rhe,
    cfgA, stC, envC, pC]

/-- C4 (amended): when the call reports settled = true, the MotionResult is
consistent: max_err_ticks equals the maximum over the configured axes of
the absolute goal/final-position error for the reported final_pos (the
settle poll that completed the streak), and max_err_deg is ticksToDeg of
it.  In the not-settled case final_pos comes from an additional exit bulk
read while max_err_ticks is the previous poll reading, so the counterpart
equality fails there (see the counterexample). -/
theorem settled_max_err_consistent (cfg : Cfg) (p : ExecParams)
    (st0 : CtrlState) (env : Env) (mp : ℕ)
    (h : (execute_time_synced cfg p st0 env mp).settled = true) :
    (execute_time_synced cfg p st0 env mp).max_err_ticks
        = some (max_abs_err cfg.ids (execute_time_synced cfg p st0 env mp).goal
            (execute_time_synced cfg p st0 env mp).final_pos) ∧
      (execute_time_synced cfg p st0 env mp).max_err_deg
        = some (ticks_to_deg cfg.ticks_per_rev
            (max_abs_err cfg.ids (execute_time_synced cfg p st0 env mp).goal
              (execute_time_synced cfg p st0 env mp).final_pos)) := by
  obtain ⟨-, -, -, -, -, hgoal⟩ := exec_components cfg p st0 env mp
  rcases hres : settleOf cfg p st0 env mp with ⟨j, r2, st2, pos, cur, me⟩ | ⟨r2, st2, le⟩
  · obtain ⟨-, hf, hmt, hmd, -⟩ := exec_settled_branch cfg p st0 env mp
      j r2 st2 pos cur me hres
    have hres2 := hres
    rw [settleOf] at hres2
    have hme := settle_loop_settled_max_err cfg.ids env st0.cmd_ticks
      (eps_ticks_of cfg.ticks_per_rev p.eps_deg) p.settle_n mp 0
      (streamOf cfg p st0 env).ridx 0 (streamOf cfg p st0 env).st none
      j r2 st2 pos cur me hres2
    rw [hmt, hmd, hf, hgoal, hme]
    exact ⟨rfl, rfl⟩
  · obtain ⟨hs, -⟩ := exec_timeout_branch cfg p st0 env mp r2 st2 le hres
    rw [hs] at h
    exact absurd h (by simp)

/-- Witness for C4 at the settled guard-trip run. -/
theorem settled_max_err_consistent_witness :
    (execute_time_synced cfgA pA stA envA 5).settled = true ∧
      ((execute_time_synced cfgA pA stA envA 5).max_err_ticks
          = some (max_abs_err cfgA.ids (execute_time_synced cfgA pA stA envA 5).goal
              (execute_time_synced cfgA pA stA envA 5).final_pos) ∧
        (execute_time_synced cfgA pA stA envA 5).max_err_deg
          = some (ticks_to_deg cfgA.ticks_per_rev
              (max_abs_err cfgA.ids (execute_time_synced cfgA pA stA envA 5).goal
                (execute_time_synced cfgA pA stA envA 5).final_pos))) :=
  ⟨by norm_num [execute_time_synced, streamOf, settleOf, stream_loop,
      settle_loop, applyRead, max_abs_err, guard_bad, stepsOf, truncZ,
      eps_ticks_of, deg_to_ticks, rhe, cfgA, stA, envA, pA],
   settled_max_err_consistent cfgA pA stA envA 5
    (by norm_num [execute_time_synced, streamOf, settleOf, stream_loop,
      settle_loop, applyRead, max_abs_err, guard_bad, stepsOf, truncZ,
      eps_ticks_of, deg_to_ticks, rhe, cfgA, stA, envA, pA])⟩

/-! C5 — current channel degrade-once. -/

def cfgB5 : Cfg := Cfg.mk [7] 4096 11 64 4

def stB5 : CtrlState :=
  CtrlState.mk (fun _ => 0) (fun _ => none) (fun _ => none) none

/-- A session state whose current channel is already marked unsupported. -/
def stF5 : CtrlState :=
  CtrlState.mk (fun _ => 0) (fun _ => none) (fun _ => none) (some false)

/-- Bus response with current available on every axis. -/
def respAvail : BusResponse :=
  BusResponse.mk true (fun _ => true) (fun _ => 5) (fun _ => true) (fun _ => 3)

/-- Bus response with the current field unavailable on every axis. -/
def respNoCur : BusResponse :=
  BusResponse.mk true (fun _ => true) (fun _ => 5) (fun _ => false) (fun _ => 3)

def c5_default : BulkReadOut × CtrlState :=
  (BulkReadOut.mk (fun _ => 0) (fun _ => none) false, stB5)

/-- First session read: requests current, finds it available. -/
def c5_read1 : BulkReadOut × CtrlState :=
  (bulk_read cfgB5 stB5 true respAvail).toOption.getD c5_default

/-- Second session read: requests current, finds it unavailable for axis 7. -/
def c5_read2 : BulkReadOut × CtrlState :=
  (bulk_read cfgB5 c5_read1.2 true respNoCur).toOption.getD c5_default

/-- Third session read, after one in which current was unavailable. -/
def c5_read3 : BulkReadOut × CtrlState :=
  (bulk_read cfgB5 c5_read2.2 true respAvail).toOption.getD c5_default

/-- C5 counterexample: only the first current-requesting read decides the
flag.  Here the second read of the session requests current and finds it
unavailable for axis 7, yet the session keeps supports_current = some true
and the third read requests current again (and gets a reading back) —
contradicting the claim that any such read permanently marks the channel
unsupported. -/
theorem current_unavailable_second_read_not_marked :
    c5_read2.1.requested_current = true ∧
    c5_read2.1.cur 7 = none ∧
    c5_read2.2.supports_current = some true ∧
    c5_read3.1.requested_current = true ∧
    c5_read3.1.cur 7 = some 3 := by
  refine ⟨rfl, rfl, rfl, rfl, rfl⟩

lemma bulk_read_ok_iff (cfg : Cfg) (st : CtrlState) (want : Bool)
    (resp : BusResponse) :
    (∃ o2 s3, bulk_read cfg st want resp = Except.ok (o2, s3)) ↔
      (resp.commOk = true ∧ ∀ i ∈ cfg.ids, resp.posAvail i = true) := by
  simp only [bulk_read]
  by_cases h1 : resp.commOk = false
  · simp [h1]
  · rw [if_neg h1]
    by_cases h2 : cfg.ids.any (fun i => !resp.posAvail i) = true
    · rw [if_pos h2]
      simp only [List.any_eq_true, Bool.not_eq_true'] at h2
      obtain ⟨i, hi, hpa⟩ := h2
      constructor
      · rintro ⟨o2, s3, h⟩
        exact absurd h (by simp)
      · rintro ⟨-, hall⟩
        exact absurd (hall i hi) (by simp [hpa])
    · rw [if_neg h2]
      simp only [List.any_eq_true, Bool.not_eq_true'] at h2
      push_neg at h2
      constructor
      · rintro -
        refine ⟨by simpa using h1, fun i hi => ?_⟩
        by_contra hpa
        exact h2 i hi (by simpa using hpa)
      · rintro -
        exact ⟨_, _, rfl⟩

/-- C5 (amended): the support flag is decided once, by the FIRST bulk read
that requests current: if that read finds current unavailable for some
axis, the session permanently holds supports_current = some false, and in
that state every bulk_read with want_current = true does not request
current again, returns an absent current for every axis, keeps the flag,
and (like every bulk_read) fails only on a transport failure or a missing
position, never because of the absence of current. -/
theorem current_degrade_once_first_attempt (cfg : Cfg) (st : CtrlState)
    (resp : BusResponse) (o : BulkReadOut) (s2 : CtrlState)
    (hok : bulk_read cfg st true resp = Except.ok (o, s2)) :
    (st.supports_current = none → (∃ i ∈ cfg.ids, resp.curAvail i = false) →
      s2.supports_current = some false) ∧
      (st.supports_current = some false →
        o.requested_current = false ∧ (∀ i, o.cur i = none) ∧
          s2.supports_current = some false) ∧
      (∀ (want : Bool) (resp2 : BusResponse),
        (∃ o2 s3, bulk_read cfg st want resp2 = Except.ok (o2, s3)) ↔
          (resp2.commOk = true ∧ ∀ i ∈ cfg.ids, resp2.posAvail i = true)) := by
  refine ⟨?_, ?_, fun want resp2 => bulk_read_ok_iff cfg st want resp2⟩
  · intro hsup hbad
    simp only [bulk_read, hsup] at hok
    by_cases h1 : resp.commOk = false
    · rw [if_pos h1] at hok
      exact absurd hok (by simp)
    rw [if_neg h1] at hok
    by_cases h2 : cfg.ids.any (fun i => !resp.posAvail i) = true
    · rw [if_pos h2] at hok
      exact absurd hok (by simp)
    rw [if_neg h2] at hok
    simp only [Except.ok.injEq, Prod.mk.injEq] at hok
    obtain ⟨-, hs⟩ := hok
    obtain ⟨i, hi, hcav⟩ := hbad
    have hall : cfg.ids.all (fun i => resp.curAvail i) = false := by
      simp only [List.all_eq_false]
      exact ⟨i, hi, by simp [hcav]⟩
    rw [← hs]
    simp [hall]
  · intro hsup
    simp only [bulk_read, hsup] at hok
    by_cases h1 : resp.commOk = false
    · rw [if_pos h1] at hok
      exact absurd hok (by simp)
    rw [if_neg h1] at hok
    by_cases h2 : cfg.ids.any (fun i => !resp.posAvail i) = true
    · rw [if_pos h2] at hok
      exact absurd hok (by simp)
    rw [if_neg h2] at hok
    simp only [Except.ok.injEq, Prod.mk.injEq] at hok
    obtain ⟨ho, hs⟩ := hok
    refine ⟨?_, ?_, ?_⟩
    · rw [← ho]
      simp
    · intro i
      rw [← ho]
      simp
    · rw [← hs]
      simp

/-- The read performed in the already-degraded session state. -/
def c5_readF : BulkReadOut × CtrlState :=
  (bulk_read cfgB5 stF5 true respNoCur).toOption.getD c5_default

/-- Witness for C5 in the degraded session state. -/
theorem current_degrade_once_first_attempt_witness :
    bulk_read cfgB5 stF5 true respNoCur = Except.ok (c5_readF.1, c5_readF.2) ∧
      ((stF5.supports_current = none →
          (∃ i ∈ cfgB5.ids, respNoCur.curAvail i = false) →
          c5_readF.2.supports_current = some false) ∧
        (stF5.supports_current = some false →
          c5_readF.1.requested_current = false ∧
            (∀ i, c5_readF.1.cur i = none) ∧
            c5_readF.2.supports_current = some false) ∧
        (∀ (want : Bool) (resp2 : BusResponse),
          (∃ o2 s3, bulk_read cfgB5 stF5 want resp2 = Except.ok (o2, s3)) ↔
            (resp2.commOk = true ∧ ∀ i ∈ cfgB5.ids, resp2.posAvail i = true))) :=
  ⟨rfl, current_degrade_once_first_attempt cfgB5 stF5 respNoCur c5_readF.1
    c5_readF.2 rfl⟩

/-! C2 — the settle decision. -/

/-- The max absolute tick error the settle phase observes at its poll `t`,
reading the environment from `base` on. -/
def settle_poll_err (ids : List ℕ) (goal : ℕ → ℤ) (env : Env)
    (base t : ℕ) : ℤ :=
  max_abs_err ids goal (env (base + t)).pos

/-- Whether settle poll `t` is within tolerance. -/
def settle_ok (ids : List ℕ) (goal : ℕ → ℤ) (env : Env) (eps : ℤ)
    (base t : ℕ) : Bool :=
  decide (settle_poll_err ids goal env base t ≤ eps)

/-- Length of the run of consecutive satisfied polls ending just before
poll `j` (0 when poll `j - 1` was unsatisfied or `j = 0`). -/
def okRun (ok : ℕ → Bool) : ℕ → ℕ
  | 0 => 0
  | j + 1 => if ok j then okRun ok j + 1 else 0

lemma okRun_ge_iff (ok : ℕ → Bool) :
    ∀ j c, c ≤ okRun ok j ↔ (c ≤ j ∧ ∀ t, t < j → j ≤ t + c → ok t = true) := by
  intro j
  induction j with
  | zero =>
    intro c
    simp only [okRun]
    constructor
    · intro h
      exact ⟨h, fun t ht1 ht2 => by omega⟩
    · intro h
      exact h.1
  | succ j ih =>
    intro c
    cases c with
    | zero =>
      simp only [Nat.zero_le, true_iff, true_and]
      intro t ht1 ht2
      omega
    | succ c =>
      by_cases hok : ok j = true
      · rw [okRun, if_pos hok]
        constructor
        · intro h
          have h2 := (ih c).mp (by omega)
          refine ⟨by omega, fun t ht hge => ?_⟩
          by_cases htj : t = j
          · subst htj; exact hok
          · exact h2.2 t (by omega) (by omega)
        · rintro ⟨hc, hall⟩
          have := (ih c).mpr
            ⟨by omega, fun t ht hge => hall t (by omega) (by omega)⟩
          omega
      · rw [okRun, if_neg hok]
        constructor
        · intro h
          omega
        · rintro ⟨hc, hall⟩
          exact absurd (hall j (by omega) (by omega)) hok

lemma settle_loop_settledAt_iff (ids : List ℕ) (env : Env) (goal : ℕ → ℤ)
    (eps : ℤ) (n : ℕ) (hn : 1 ≤ n) (r0 : ℕ) :
    ∀ fuel j streak st le m,
      streak = okRun (settle_ok ids goal env eps r0) j →
      streak + 1 ≤ n →
      ((settle_loop ids env goal eps n fuel j (r0 + j) streak st le).settledAt
          = some m ↔
        (j ≤ m ∧ m < j + fuel ∧
          n ≤ okRun (settle_ok ids goal env eps r0) (m + 1) ∧
          ∀ i, j ≤ i → i < m →
            okRun (settle_ok ids goal env eps r0) (i + 1) < n)) := by
  intro fuel
  induction fuel with
  | zero =>
    intro j streak st le m hinv hlt
    simp only [settle_loop, SettleRes.settledAt]
    constructor
    · intro h
      simp at h
    · rintro ⟨h1, h2, -, -⟩
      omega
  | succ f ih =>
    intro j streak st le m hinv hlt
    simp only [settle_loop]
    by_cases hok : max_abs_err ids goal (env (r0 + j)).pos ≤ eps
    · rw [if_pos hok]
      have hokj : settle_ok ids goal env eps r0 j = true := by
        simp [settle_ok, settle_poll_err, hok]
      have hrun1 : okRun (settle_ok ids goal env eps r0) (j + 1) = streak + 1 := by
        rw [okRun, if_pos hokj, ← hinv]
      by_cases hst : n ≤ streak + 1
      · rw [if_pos hst]
        simp only [SettleRes.settledAt]
        constructor
        · intro h
          have hm : j = m := Option.some.inj h
          subst hm
          refine ⟨le_refl _, by omega, by rw [hrun1]; omega,
            fun i hi1 hi2 => by omega⟩
        · rintro ⟨h1, h2, h3, h4⟩
          by_cases hm : m = j
          · subst hm; rfl
          · exfalso
            have := h4 j (le_refl _) (by omega)
            rw [hrun1] at this
            omega
      · rw [if_neg hst]
        have hrec := ih (j + 1) (streak + 1)
          (applyRead ids st (env (r0 + j))) (some (max_abs_err ids goal (env (r0 + j)).pos))
          m hrun1.symm (by omega)
        simp only [← Nat.add_assoc] at hrec
        rw [hrec]
        constructor
        · rintro ⟨h1, h2, h3, h4⟩
          refine ⟨by omega, by omega, h3, fun i hi1 hi2 => ?_⟩
          by_cases hij : i = j
          · subst hij
            rw [hrun1]
            omega
          · exact h4 i (by omega) hi2
        · rintro ⟨h1, h2, h3, h4⟩
          have hmj : m ≠ j := by
            intro hm
            subst hm
            rw [hrun1] at h3
            omega
          exact ⟨by omega, by omega, h3, fun i hi1 hi2 => h4 i (by omega) hi2⟩
    · rw [if_neg hok]
      have hokj : settle_ok ids goal env eps r0 j = false := by
        simp [settle_ok, settle_poll_err, hok]
      have hrun0 : okRun (settle_ok ids goal env eps r0) (j + 1) = 0 := by
        rw [okRun, if_neg (by simp [hokj])]
      have hrec := ih (j + 1) 0
        (applyRead ids st (env (r0 + j))) (some (max_abs_err ids goal (env (r0 + j)).pos))
        m hrun0.symm (by omega)
      simp only [← Nat.add_assoc] at hrec
      rw [hrec]
      constructor
      · rintro ⟨h1, h2, h3, h4⟩
        refine ⟨by omega, by omega, h3, fun i hi1 hi2 => ?_⟩
        by_cases hij : i = j
        · subst hij
          rw [hrun0]
          omega
        · exact h4 i (by omega) hi2
      · rintro ⟨h1, h2, h3, h4⟩
        have hmj : m ≠ j := by
          intro hm
          subst hm
          rw [hrun0] at h3
          omega
        exact ⟨by omega, by omega, h3, fun i hi1 hi2 => h4 i (by omega) hi2⟩

/-- C2: during the settle phase the executor reports settled = true at poll
index m (0-based, with settled_at the instrumented poll index) exactly when
m is the earliest poll at which the last settleStreakCount consecutive
polls — and at least settleStreakCount polls exist — each satisfy
maxAbsoluteTickError ≤ epsilonTicks; an out-of-tolerance poll resets the
streak, as the run-length characterization expresses.  The settled flag is
true exactly when such a poll index exists within the deadline. -/
theorem settled_iff_earliest_streak (cfg : Cfg) (p : ExecParams)
    (st0 : CtrlState) (env : Env) (mp : ℕ) (hn : 1 ≤ p.settle_n) (m : ℕ) :
    ((execute_time_synced cfg p st0 env mp).settled_at = some m ↔
      (m < mp ∧ p.settle_n ≤ m + 1 ∧
        (∀ t, t ≤ m → m < t + p.settle_n →
          settle_poll_err cfg.ids st0.cmd_ticks env
              (execute_time_synced cfg p st0 env mp).settle_base t
            ≤ eps_ticks_of cfg.ticks_per_rev p.eps_deg) ∧
        (∀ j, j < m →
          ¬ (p.settle_n ≤ j + 1 ∧ ∀ t, t ≤ j → j < t + p.settle_n →
            settle_poll_err cfg.ids st0.cmd_ticks env
                (execute_time_synced cfg p st0 env mp).settle_base t
              ≤ eps_ticks_of cfg.ticks_per_rev p.eps_deg)))) ∧
      ((execute_time_synced cfg p st0 env mp).settled = true ↔
        (execute_time_synced cfg p st0 env mp).settled_at ≠ none) := by
  obtain ⟨-, -, hbase, hsat, hflag, -⟩ := exec_components cfg p st0 env mp
  refine ⟨?_, hflag⟩
  rw [hsat, hbase]
  have hloop := settle_loop_settledAt_iff cfg.ids env st0.cmd_ticks
    (eps_ticks_of cfg.ticks_per_rev p.eps_deg) p.settle_n hn
    (streamOf cfg p st0 env).ridx mp 0 0
    (streamOf cfg p st0 env).st none m rfl (by omega)
  rw [settleOf]
  simp only [Nat.add_zero, Nat.zero_add] at hloop
  rw [hloop]
  have hbridge : ∀ x : ℕ,
      (p.settle_n ≤ okRun (settle_ok cfg.ids st0.cmd_ticks env
          (eps_ticks_of cfg.ticks_per_rev p.eps_deg)
          (streamOf cfg p st0 env).ridx) (x + 1)) ↔
        (p.settle_n ≤ x + 1 ∧ ∀ t, t ≤ x → x < t + p.settle_n →
          settle_poll_err cfg.ids st0.cmd_ticks env
              (streamOf cfg p st0 env).ridx t
            ≤ eps_ticks_of cfg.ticks_per_rev p.eps_deg) := by
    intro x
    rw [okRun_ge_iff]
    constructor
    · rintro ⟨h1, h2⟩
      refine ⟨h1, fun t ht1 ht2 => ?_⟩
      have := h2 t (by omega) (by omega)
      simpa [settle_ok] using this
    · rintro ⟨h1, h2⟩
      refine ⟨h1, fun t ht1 ht2 => ?_⟩
      have := h2 t (by omega) (by omega)
      simpa [settle_ok] using this
  constructor
  · rintro ⟨-, h2, h3, h4⟩
    obtain ⟨h3a, h3b⟩ := (hbridge m).mp h3
    refine ⟨by omega, h3a, h3b, fun j hj => ?_⟩
    intro hcon
    have hlt := h4 j (by omega) hj
    have := (hbridge j).mpr hcon
    omega
  · rintro ⟨h1, h2, h3, h4⟩
    refine ⟨by omega, by omega, (hbridge m).mpr ⟨h2, h3⟩, fun i hi1 hi2 => ?_⟩
    by_contra hcon
    push_neg at hcon
    exact h4 i hi2 ((hbridge i).mp (by omega))

/-- Settle scenario: command 100; the settle-phase polls read positions
95, 95, 99, 99, 99, ... — the error sequence 5, 5, 1, 1, 1. -/
def stS : CtrlState :=
  CtrlState.mk (fun _ => 100) (fun _ => none) (fun _ => none) none

def envS : Env := fun n =>
  if n = 0 then ReadResult.mk (fun _ => 0) (fun _ => none)
  else if n ≤ 2 then ReadResult.mk (fun _ => 95) (fun _ => none)
  else ReadResult.mk (fun _ => 99) (fun _ => none)

def pS : ExecParams := ExecParams.mk 1 1 2 3 false none

/-- Witness for C2 on the error sequence [5,5,1,1,1] with tolerance 2 ticks
and streak count 3: the characterization instantiated at poll index 4. -/
theorem settled_iff_earliest_streak_witness :
    1 ≤ pS.settle_n ∧
      (((execute_time_synced cfgA pS stS envS 5).settled_at = some 4 ↔
        (4 < 5 ∧ pS.settle_n ≤ 4 + 1 ∧
          (∀ t, t ≤ 4 → 4 < t + pS.settle_n →
            settle_poll_err cfgA.ids stS.cmd_ticks envS
                (execute_time_synced cfgA pS stS envS 5).settle_base t
              ≤ eps_ticks_of cfgA.ticks_per_rev pS.eps_deg) ∧
          (∀ j, j < 4 →
            ¬ (pS.settle_n ≤ j + 1 ∧ ∀ t, t ≤ j → j < t + pS.settle_n →
              settle_poll_err cfgA.ids stS.cmd_ticks envS
                  (execute_time_synced cfgA pS stS envS 5).settle_base t
                ≤ eps_ticks_of cfgA.ticks_per_rev pS.eps_deg)))) ∧
        ((execute_time_synced cfgA pS stS envS 5).settled = true ↔
          (execute_time_synced cfgA pS stS envS 5).settled_at ≠ none)) :=
  ⟨by norm_num [pS],
   settled_iff_earliest_streak cfgA pS stS envS 5 (by norm_num [pS]) 4⟩

end DxlServo
